import Mathlib

/-
  Verification of mailman_unblock.py (form-fidelity payload construction,
  submit-control selection, blocked-row extraction, and the per-letter
  orchestration protocol) against its specification.

  The HTML documents handled by the script are modelled as parsed forms:
  an ordered list of field-producing elements (inputs, textareas, selects)
  together with the DOM context the script consults (enclosing table row,
  next-sibling texts, enclosing cell text).  BeautifulSoup attribute access
  `tag.get(k)` is modelled by `Option String` (absent attribute = `none`);
  Python truthiness of a string is `≠ ""`.  HTTP transport is outside the
  embedding: each fetch is modelled by the page it returns, and submissions
  are recorded in a trace instead of being sent.
-/

namespace Mailman

/-- Lowercase a string character by character; models Python `str.lower()`
for the ASCII keyword strings the script compares. -/
def lowerStr (s : String) : String := ⟨s.data.map Char.toLower⟩

/-- Containment of one character list inside another (at any position). -/
def subChars (needle : List Char) : List Char → Bool
  | [] => needle.isEmpty
  | c :: t => needle.isPrefixOf (c :: t) || subChars needle t

/-- Models the Python substring test `needle in hay`. -/
def strIn (needle hay : String) : Bool := subChars needle.data hay.data

/-- Models Python `s.endswith(suf)`. -/
def endsW (s suf : String) : Bool := suf.data.isSuffixOf s.data

/-- One `<input>` element.  `name`/`typ`/`value` are the attributes as
BeautifulSoup's `get` sees them; `checked` is presence of the `checked`
attribute.  `rowId` identifies the enclosing `<tr>` (if any), `sibTexts`
holds the stripped texts of the element's next siblings, and `cellText`
the text of the enclosing `<td>` (if any): the DOM context consulted by
`find_blocked_rows_with_reasons` and `_nomail_reason_from_box`. -/
structure InputEl where
  name : Option String
  typ : Option String
  value : Option String
  checked : Bool
  rowId : Option Nat
  sibTexts : List String
  cellText : Option String
deriving DecidableEq

/-- One `<textarea>` element (`text` is its text content). -/
structure TextareaEl where
  name : Option String
  text : String
deriving DecidableEq

/-- One `<option>` of a `<select>`. -/
structure OptionEl where
  value : Option String
  text : String
  selected : Bool
deriving DecidableEq

/-- One `<select>` element with its options in document order. -/
structure SelectEl where
  name : Option String
  multiple : Bool
  options : List OptionEl
deriving DecidableEq

/-- A field-producing element of the form, in document order. -/
inductive Element where
  | input : InputEl → Element
  | textarea : TextareaEl → Element
  | sel : SelectEl → Element
deriving DecidableEq

/-- The first `<form>` of a fetched page, as `parse_members_form` exposes it. -/
structure Form where
  action : Option String
  method : Option String
  elements : List Element
deriving DecidableEq

/-- A fetched page: its final URL (`response.url`) and its first form, when
one parses (`parse_members_form` returns the soup and `soup.find("form")`). -/
structure Page where
  url : String
  form : Option Form
deriving DecidableEq

/-- Projection used to model `form.find_all("input")`. -/
def toInputEl : Element → Option InputEl
  | .input i => some i
  | _ => none

/-- Projection used to model `form.find_all("textarea")`. -/
def toTextareaEl : Element → Option TextareaEl
  | .textarea t => some t
  | _ => none

/-- Projection used to model `form.find_all("select")`. -/
def toSelectEl : Element → Option SelectEl
  | .sel s => some s
  | _ => none

/-- Models `form.find_all("input")`: the input descendants in document order. -/
def inputsOf (f : Form) : List InputEl := f.elements.filterMap toInputEl

/-- Models `form.find_all("textarea")`. -/
def textareasOf (f : Form) : List TextareaEl := f.elements.filterMap toTextareaEl

/-- Models `form.find_all("select")`. -/
def selectsOf (f : Form) : List SelectEl := f.elements.filterMap toSelectEl

/-- The name attribute as a plain string; Python's `if not name: continue`
skips both an absent and an empty name, so `""` encodes "no usable name". -/
def nameStr (n : Option String) : String := n.getD ""

/-- Pairs contributed by one `<input>` in `collect_payload_pairs`
(mailman_unblock.py lines 151-165): skip nameless fields and
submit/image/button/file; include checkboxes/radios only when checked,
defaulting an empty value to `"on"`; include every other type with its
literal value (empty string when absent). -/
def inputPairs (i : InputEl) : List (String × String) :=
  let n := nameStr i.name
  if n = "" then []
  else
    let typ := lowerStr (i.typ.getD "")
    let val := i.value.getD ""
    if typ = "submit" ∨ typ = "image" ∨ typ = "button" ∨ typ = "file" then []
    else if typ = "checkbox" ∨ typ = "radio" then
      if i.checked then [(n, if val = "" then "on" else val)] else []
    else [(n, val)]

/-- Is the input of checkbox or radio type (the branch at line 160)? -/
def isCbRadio (i : InputEl) : Bool :=
  lowerStr (i.typ.getD "") == "checkbox" || lowerStr (i.typ.getD "") == "radio"

/-- Pairs contributed by one `<textarea>` (lines 168-172). -/
def taPairs (t : TextareaEl) : List (String × String) :=
  let n := nameStr t.name
  if n = "" then [] else [(n, t.text)]

/-- Pairs contributed by one `<select>` (lines 175-191): for a multiple
select one pair per selected option; for a single select the first selected
option, else the first option; an option's value defaults to its text. -/
def selPairs (s : SelectEl) : List (String × String) :=
  let n := nameStr s.name
  if n = "" then []
  else
    let selected := s.options.filter (fun o => o.selected)
    if s.multiple then selected.map (fun o => (n, o.value.getD o.text))
    else
      match selected with
      | o :: _ => [(n, o.value.getD o.text)]
      | [] =>
        match s.options with
        | o :: _ => [(n, o.value.getD o.text)]
        | [] => []

/-- Concatenation of the pair lists contributed by each element of a list,
in order; this is what a Python loop appending to `pairs` computes. -/
def flatPairs (g : α → List (String × String)) : List α → List (String × String)
  | [] => []
  | a :: t => g a ++ flatPairs g t

/-- `collect_payload_pairs` (lines 141-192): three successive passes over
the form, first every `<input>`, then every `<textarea>`, then every
`<select>`, each pass in document order. -/
def collect_payload_pairs (f : Form) : List (String × String) :=
  flatPairs inputPairs (inputsOf f) ++ flatPairs taPairs (textareasOf f)
    ++ flatPairs selPairs (selectsOf f)

/-- Pairs of a single field-producing element under the per-element rules
shared by `collect_payload_pairs` and spec section 4.2. -/
def elementPairs : Element → List (String × String)
  | .input i => inputPairs i
  | .textarea t => taPairs t
  | .sel s => selPairs s

/-- Modelled from the spec (section 4.2): the browser-order payload, every
field-producing element evaluated interleaved in document order.  Used to
compare `collect_payload_pairs` against the ordering the claims assert. -/
def browserPairs (f : Form) : List (String × String) :=
  flatPairs elementPairs f.elements

/-- Is this element an `<input>`? -/
def isInputEl (e : Element) : Bool := (toInputEl e).isSome

/-- Is this element a `<textarea>`? -/
def isTextareaEl (e : Element) : Bool := (toTextareaEl e).isSome

/-- Is this element a `<select>`? -/
def isSelectEl (e : Element) : Bool := (toSelectEl e).isSome

/-- The same form with its field elements stably regrouped by kind:
all inputs first, then all textareas, then all selects. -/
def regroup (f : Form) : Form :=
  ⟨f.action, f.method,
    f.elements.filter isInputEl ++ f.elements.filter isTextareaEl
      ++ f.elements.filter isSelectEl⟩

/-- The payload filtering step of `process_letter` (line 419, also 404 and
467): drop every pair whose name is in the given name set.  This is the
spec's `withoutNames` contract. -/
def withoutNames (payload : List (String × String)) (names : List String) :
    List (String × String) :=
  payload.filter (fun kv => decide (kv.1 ∉ names))

/-- `absolutize_action` (lines 86-90).  `urllib.parse.urljoin` is an
external library routine, passed in as a parameter. -/
def absolutize_action (urljoin : String → String → String)
    (formAction : Option String) (currentUrl : String) : String :=
  match formAction with
  | none => currentUrl
  | some a => if a = "" then currentUrl else urljoin currentUrl a

/-- The first input element satisfying `p`, in document order; models a
`for inp in form.find_all("input")` loop returning at its first hit, and
BeautifulSoup's `find`/`find_next` restricted to inputs. -/
def firstInput (p : InputEl → Bool) : List Element → Option InputEl
  | [] => none
  | .input i :: t => if p i then some i else firstInput p t
  | _ :: t => firstInput p t

/-- `pick_submit_control` (lines 243-248): the first named submit input,
fully synthesized as `("submit", "Submit")` when none exists. -/
def pick_submit_control (f : Form) : String × String :=
  match firstInput
      (fun i => lowerStr (i.typ.getD "") == "submit" && nameStr i.name != "")
      f.elements with
  | some i =>
    let v := i.value.getD ""
    (nameStr i.name, if v = "" then "Submit" else v)
  | none => ("submit", "Submit")

/-- The keyword score of `pick_members_submit` (lines 265-273), computed
over the lowercased text `name ++ " " ++ value`. -/
def memberScore (n val : String) : Int :=
  let text := lowerStr (n ++ " " ++ val)
  (if ["submit your changes", "submit", "change", "apply", "update",
      "setmember"].any (fun w => strIn w text) then 5 else 0)
    + (if strIn "search" text || strIn "findmember" text then -10 else 0)
    + (if strIn "setmember" text then 3 else 0)

/-- A scored members-page submit candidate: name, value, score. -/
abbrev Cand := String × String × Int

/-- The candidate list built by `pick_members_submit` (lines 257-274):
every named submit input, its value defaulted to `"Submit"` when empty,
with its keyword score. -/
def candidatesOf (f : Form) : List Cand :=
  (inputsOf f).filterMap (fun i =>
    if lowerStr (i.typ.getD "") = "submit" then
      let n := nameStr i.name
      if n = "" then none
      else
        let val := i.value.getD ""
        some (n, if val = "" then "Submit" else val, memberScore n val)
    else none)

/-- Insertion step of a stable descending sort by score: an element is
placed before the first already-sorted element of lower or equal score,
so earlier elements stay ahead of later ones with the same score. -/
def insertCand (c : Cand) : List Cand → List Cand
  | [] => [c]
  | d :: ds => if d.2.2 ≤ c.2.2 then c :: d :: ds else d :: insertCand c ds

/-- Stable descending sort by score: models Python's
`candidates.sort(key=lambda x: x[2], reverse=True)`, which is stable. -/
def sortDesc : List Cand → List Cand
  | [] => []
  | c :: cs => insertCand c (sortDesc cs)

/-- `pick_members_submit` (lines 251-282): sort candidates by descending
score (stable, so ties resolve to first document occurrence) and take the
first; with no candidates fall back to `pick_submit_control`. -/
def pick_members_submit (f : Form) : String × String :=
  match sortDesc (candidatesOf f) with
  | c :: _ => (c.1, c.2.1)
  | [] => pick_submit_control f

/-- The first candidate attaining the maximal score (what the head of a
stable descending sort is). -/
def firstArgmax : List Cand → Option Cand
  | [] => none
  | c :: cs =>
    match firstArgmax cs with
    | none => some c
    | some d => if c.2.2 < d.2.2 then some d else some c

/-- Modelled from claim C5's words: the same keyword weights, but scored
over the plain concatenation of name and value (no separating space). -/
def claimScore (n val : String) : Int :=
  let text := lowerStr (n ++ val)
  (if ["submit your changes", "submit", "change", "apply", "update",
      "setmember"].any (fun w => strIn w text) then 5 else 0)
    + (if strIn "search" text || strIn "findmember" text then -10 else 0)
    + (if strIn "setmember" text then 3 else 0)

/-- Modelled from claim C5's words: candidates carrying the field's own
(name, value), not a defaulted value. -/
def claimCandidates (f : Form) : List Cand :=
  (inputsOf f).filterMap (fun i =>
    if lowerStr (i.typ.getD "") = "submit" then
      let n := nameStr i.name
      if n = "" then none
      else some (n, i.value.getD "", claimScore n (i.value.getD ""))
    else none)

/-- Modelled from claim C5's words: return the (name, value) of the
highest-scoring submit field, ties to the first in document order. -/
def membersSubmitPerClaim (f : Form) : String × String :=
  match firstArgmax (claimCandidates f) with
  | some c => (c.1, c.2.1)
  | none => pick_submit_control f

/-- The named submit inputs of the bounce page with their values
(`pick_bounce_submit`'s `candidates` list, lines 289-295). -/
def bounceCandidates (f : Form) : List (String × String) :=
  (inputsOf f).filterMap (fun i =>
    if lowerStr (i.typ.getD "") = "submit" ∧ nameStr i.name ≠ ""
    then some (nameStr i.name, i.value.getD "")
    else none)

/-- `pick_bounce_submit` (lines 287-301): return on the first candidate
whose name+value text holds a clear/reset/remove/process token, else the
first candidate, else a synthesized `("submit", "Submit")`. -/
def pick_bounce_submit (f : Form) : String × String :=
  match (bounceCandidates f).find? (fun c =>
      ["clear", "reset", "remove", "process"].any
        (fun w => strIn w (lowerStr (c.1 ++ " " ++ c.2)))) with
  | some c => (c.1, if c.2 = "" then "Submit" else c.2)
  | none =>
    match bounceCandidates f with
    | c :: _ => c
    | [] => ("submit", "Submit")

/-- Does an input match the CSS selector
`input[type='checkbox'][name$='_nomail'][checked]` (line 227)? -/
def isBlockedBox (b : InputEl) : Bool :=
  b.typ == some "checkbox"
    && (match b.name with
        | some n => endsW n "_nomail"
        | none => false)
    && b.checked

/-- `isBlockedBox` lifted to elements. -/
def isBlockedElem : Element → Bool
  | .input b => isBlockedBox b
  | _ => false

/-- Python truthiness of an input's value attribute:
`inp.get("value")` used as a condition. -/
def truthyVal (i : InputEl) : Option String :=
  i.value.bind (fun v => if v = "" then none else some v)

/-- The fallback address lookup (lines 234-237): the nearest input named
`user` after document position `i` (`box.find_next`), kept when its value
is truthy, else the sentinel `"(unknown)"`. -/
def fallbackAddr (f : Form) (i : Nat) : String :=
  match (firstInput (fun u => u.name == some "user")
      (f.elements.drop (i + 1))).bind truthyVal with
  | some v => v
  | none => "(unknown)"

/-- The row-local address lookup (lines 231-233): the first input named
`user` of the enclosing row (`tr.find`), kept when its value is truthy. -/
def rowAddrOf (f : Form) (b : InputEl) : Option String :=
  match b.rowId with
  | some rid =>
    (firstInput (fun u => u.rowId == some rid && u.name == some "user")
      f.elements).bind truthyVal
  | none => none

/-- The address lookup of `find_blocked_rows_with_reasons` (lines 231-237)
for the box at element position `i`: the first input named `user` of the
enclosing row if its value is truthy, else the fallback lookup. -/
def resolveAddr (f : Form) (i : Nat) (b : InputEl) : String :=
  match rowAddrOf f b with
  | some v => v
  | none => fallbackAddr f i

/-- One sibling text inspected by `_nomail_reason_from_box` (lines 202-210):
a token starting with `[` and containing `]` whose second character
uppercases to A, B or U yields that letter. -/
def sibTok (t : String) : Option Char :=
  match t.data with
  | '[' :: c :: _ =>
    if strIn "]" t && (c.toUpper == 'A' || c.toUpper == 'B' || c.toUpper == 'U')
    then some c.toUpper else none
  | _ => none

/-- Scan of the sibling texts: the first one yielding a token letter. -/
def firstSibTok : List String → Option Char
  | [] => none
  | t :: rest =>
    match sibTok t with
    | some c => some c
    | none => firstSibTok rest

/-- Fallback scan of the enclosing cell's text (lines 211-218), trying the
tokens `[A]`, `[B]`, `[U]` in that fixed order. -/
def cellScan : Option String → Option Char
  | none => none
  | some txt =>
    if strIn "[A]" txt then some 'A'
    else if strIn "[B]" txt then some 'B'
    else if strIn "[U]" txt then some 'U'
    else none

/-- `_nomail_reason_from_box` (lines 195-219): the first three next
siblings, then the enclosing cell's text. -/
def reasonFromBox (b : InputEl) : Option Char :=
  match firstSibTok (b.sibTexts.take 3) with
  | some c => some c
  | none => cellScan b.cellText

/-- A blocked row: checkbox name, member address, reason letter. -/
abbrev Row := String × String × Option Char

/-- Worker of `find_blocked_rows_with_reasons`, walking the elements with
their document positions. -/
def blockedRowsAux (f : Form) : Nat → List Element → List Row
  | _, [] => []
  | i, e :: rest =>
    (match e with
     | .input b =>
       if isBlockedBox b
       then [(nameStr b.name, resolveAddr f i b, reasonFromBox b)]
       else []
     | _ => []) ++ blockedRowsAux f (i + 1) rest

/-- `find_blocked_rows_with_reasons` (lines 222-240): one row per checked
`*_nomail` checkbox, with its resolved address and reason letter. -/
def find_blocked_rows_with_reasons (f : Form) : List Row :=
  blockedRowsAux f 0 f.elements

/-- The bounce-disabled target rows of `process_letter` (line 391):
blocked rows whose reason letter is B. -/
def targetsOf (f : Form) : List Row :=
  (find_blocked_rows_with_reasons f).filter (fun r => r.2.2 == some 'B')

/-- The targeted checkbox names (`blocked_names`, line 392). -/
def namesOf (f : Form) : List String := (targetsOf f).map (fun r => r.1)

/-- The targeted member addresses (`blocked_addrs`, line 393). -/
def addrsOf (f : Form) : List String := (targetsOf f).map (fun r => r.2.1)

/-- The pre-submission target count (`before`, line 394). -/
def beforeOf (f : Form) : Nat := (targetsOf f).length

/-- The verification count (lines 442-447 and 480-485): the B-reason rows
of the re-fetched page, or the prior count when it has no form. -/
def remainingAfter (p : Page) (before : Nat) : Nat :=
  match p.form with
  | some vf => (targetsOf vf).length
  | none => before

/-- One recorded form submission: target URL and ordered payload. -/
structure SubmitEvent where
  url : String
  payload : List (String × String)
deriving DecidableEq

/-- The observable actions of one `process_letter` run: the members-page
submissions in order, the address list passed to the bounce-clear
escalator (if invoked), the escalator's own submission (if performed),
and the dry-run preview payload (if computed). -/
structure RunTrace where
  memberSubmits : List SubmitEvent
  escalator : Option (List String)
  bounceSubmit : Option SubmitEvent
  preview : Option SubmitEvent
deriving DecidableEq

/-- The trace of a run that performs no action. -/
def emptyTrace : RunTrace := ⟨[], none, none, none⟩

/-- The members-page submission (or dry-run preview) assembled at lines
399-427 and 462-471: build the payload from the form, strip the targeted
`*_nomail` names, append the chosen members submit control, and absolutize
the form action against the page URL. -/
def memberEvent (urljoin : String → String → String) (p : Page) (f : Form) :
    SubmitEvent :=
  ⟨absolutize_action urljoin f.action p.url,
    withoutNames (collect_payload_pairs f) (namesOf f) ++ [pick_members_submit f]⟩

/-- `clear_bounces_for_users` (lines 304-365), over the fetched bounce
page: no form means no change; keep every named non-submit input, but a
`user` input only when its value matches a target address; when no `user`
pair matched, report no change; otherwise append the bounce submit control
and perform the (multipart) submission, reporting a change. -/
def clear_bounces_for_users (urljoin : String → String → String)
    (bouncePage : Page) (targetAddrs : List String) : Bool × Option SubmitEvent :=
  match bouncePage.form with
  | none => (false, none)
  | some form =>
    let pairs := (inputsOf form).filterMap (fun i =>
      let n := nameStr i.name
      if n = "" then none
      else
        let typ := lowerStr (i.typ.getD "")
        let val := i.value.getD ""
        if typ = "submit" ∨ typ = "image" ∨ typ = "button" ∨ typ = "file" then none
        else if n = "user" then
          if val ≠ "" ∧ val ∈ targetAddrs then some (n, val) else none
        else some (n, val))
    if pairs.all (fun kv => kv.1 != "user") then (false, none)
    else
      (true, some ⟨absolutize_action urljoin form.action bouncePage.url,
        pairs ++ [pick_bounce_submit form]⟩)

/-- The pages one `process_letter` run may fetch, in fetch order: the
members page, its post-submission verification re-fetch, the bounce page,
the fresh members page for the retry, and the retry's verification. -/
structure MembersEnv where
  page1 : Page
  verify1 : Page
  bouncePage : Page
  retryPage : Page
  verify2 : Page

/-- `process_letter` (lines 375-493) as a function of the fetched pages:
returns the reported unblocked count and the trace of observable actions.
Transport failures raise out of the function in the source and are caught
by the caller's loop; the embedding models the successful-response runs. -/
def process_letter (urljoin : String → String → String) (env : MembersEnv)
    (dryRun : Bool) : Nat × RunTrace :=
  match env.page1.form with
  | none => (0, emptyTrace)
  | some form =>
    let before := beforeOf form
    if before = 0 then (0, emptyTrace)
    else if dryRun then
      (before, ⟨[], none, none, some (memberEvent urljoin env.page1 form)⟩)
    else
      let ev1 := memberEvent urljoin env.page1 form
      let remaining := remainingAfter env.verify1 before
      if remaining < before then (before - remaining, ⟨[ev1], none, none, none⟩)
      else
        let cb := clear_bounces_for_users urljoin env.bouncePage (addrsOf form)
        if cb.1 then
          match env.retryPage.form with
          | some form2 =>
            let ev2 := memberEvent urljoin env.retryPage form2
            let remaining2 := remainingAfter env.verify2 before
            if remaining2 < before
            then (before - remaining2, ⟨[ev1, ev2], some (addrsOf form), cb.2, none⟩)
            else (0, ⟨[ev1, ev2], some (addrsOf form), cb.2, none⟩)
          | none => (0, ⟨[ev1], some (addrsOf form), cb.2, none⟩)
        else (0, ⟨[ev1], some (addrsOf form), cb.2, none⟩)

/-! ## Concrete pages used to exercise the definitions -/

/-- A checked bounce-disabled (`[B]`) nomail checkbox in table row 0. -/
def wBox : InputEl :=
  { name := some "x_nomail", typ := some "checkbox", value := none,
    checked := true, rowId := some 0, sibTexts := ["[B]"], cellText := none }

/-- The hidden `user` address field of the same table row. -/
def wUser : InputEl :=
  { name := some "user", typ := some "hidden", value := some "[email protected]",
    checked := false, rowId := some 0, sibTexts := [], cellText := none }

/-- The genuine members-page submit button. -/
def wSub : InputEl :=
  { name := some "setmembers", typ := some "submit",
    value := some "Submit Your Changes", checked := false, rowId := none,
    sibTexts := [], cellText := none }

/-- A members page with one bounce-disabled member. -/
def wForm : Form :=
  ⟨some "members", some "post", [.input wUser, .input wBox, .input wSub]⟩

/-- A hidden token field on the bounce page. -/
def wBounceCsrf : InputEl :=
  { name := some "csrf_token", typ := some "hidden", value := some "tok",
    checked := false, rowId := none, sibTexts := [], cellText := none }

/-- The bounce-page row for the targeted member. -/
def wBounceUser : InputEl :=
  { name := some "user", typ := some "hidden", value := some "[email protected]",
    checked := false, rowId := some 0, sibTexts := [], cellText := none }

/-- The bounce-page clear button. -/
def wBounceSub : InputEl :=
  { name := some "clearbounce", typ := some "submit", value := some "Clear",
    checked := false, rowId := none, sibTexts := [], cellText := none }

/-- A bounce page listing the targeted member. -/
def wBounceForm : Form :=
  ⟨some "bounce", some "post",
    [.input wBounceCsrf, .input wBounceUser, .input wBounceSub]⟩

/-- A URL-join stand-in for witnesses (the claims do not depend on it). -/
def wUJ : String → String → String := fun _ a => a

/-- An environment where the members page stays unchanged after the first
submission, the bounce page matches the target, and the retry fetch
parses; it drives the escalate-and-retry path. -/
def wEnv : MembersEnv :=
  ⟨⟨"u1", some wForm⟩, ⟨"u2", some wForm⟩, ⟨"u3", some wBounceForm⟩,
   ⟨"u4", some wForm⟩, ⟨"u5", some wForm⟩⟩

/-- The same environment with a formless verification page. -/
def wEnvNoVerify : MembersEnv :=
  ⟨⟨"u1", some wForm⟩, ⟨"u2", none⟩, ⟨"u3", some wBounceForm⟩,
   ⟨"u4", some wForm⟩, ⟨"u5", some wForm⟩⟩

/-- An environment whose members page has no parsable form. -/
def wEnvNoForm : MembersEnv :=
  ⟨⟨"u1", none⟩, ⟨"u2", none⟩, ⟨"u3", none⟩, ⟨"u4", none⟩, ⟨"u5", none⟩⟩

/-- A form whose select precedes its text input in document order. -/
def cForm1 : Form :=
  ⟨none, none,
    [.sel ⟨some "s", false, [⟨some "v1", "t", false⟩]⟩,
     .input { name := some "t", typ := some "text", value := some "x",
              checked := false, rowId := none, sibTexts := [], cellText := none }]⟩

/-- A form with two checked checkboxes: one named with an explicit empty
value attribute, one nameless with value `"x"`. -/
def cForm3 : Form :=
  ⟨none, none,
    [.input { name := some "c", typ := some "checkbox", value := some "",
              checked := true, rowId := none, sibTexts := [], cellText := none },
     .input { name := none, typ := some "checkbox", value := some "x",
              checked := true, rowId := none, sibTexts := [], cellText := none }]⟩

/-- A form with two submit fields: `sub`/`mit` (whose plain concatenation,
but not its space-joined text, holds "submit") and a valueless
`gosubmit`. -/
def cForm5 : Form :=
  ⟨none, none,
    [.input { name := some "sub", typ := some "submit", value := some "mit",
              checked := false, rowId := none, sibTexts := [], cellText := none },
     .input { name := some "gosubmit", typ := some "submit", value := none,
              checked := false, rowId := none, sibTexts := [], cellText := none }]⟩

/-- A form holding a single text input and no submit-type field at all. -/
def cForm6 : Form :=
  ⟨none, none,
    [.input { name := some "t", typ := some "text", value := some "x",
              checked := false, rowId := none, sibTexts := [], cellText := none }]⟩

/-- A single select with two options, none marked selected. -/
def wSel4 : SelectEl :=
  ⟨some "sel1", false, [⟨some "v1", "t1", false⟩, ⟨none, "t2", false⟩]⟩

/-! ## General lemmas about the embedding -/

theorem flatPairs_append (g : α → List (String × String)) (l1 l2 : List α) :
    flatPairs g (l1 ++ l2) = flatPairs g l1 ++ flatPairs g l2 := by
  induction l1 with
  | nil => rfl
  | cons a t ih => simp [flatPairs, ih]

theorem flatPairs_filter_input (l : List Element) :
    flatPairs elementPairs (l.filter isInputEl)
      = flatPairs inputPairs (l.filterMap toInputEl) := by
  induction l with
  | nil => rfl
  | cons e t ih =>
    cases e <;>
      simp [List.filter_cons, List.filterMap_cons, isInputEl, toInputEl,
        flatPairs, elementPairs, ih]

theorem flatPairs_filter_textarea (l : List Element) :
    flatPairs elementPairs (l.filter isTextareaEl)
      = flatPairs taPairs (l.filterMap toTextareaEl) := by
  induction l with
  | nil => rfl
  | cons e t ih =>
    cases e <;>
      simp [List.filter_cons, List.filterMap_cons, isTextareaEl, toTextareaEl,
        flatPairs, elementPairs, ih]

theorem flatPairs_filter_select (l : List Element) :
    flatPairs elementPairs (l.filter isSelectEl)
      = flatPairs selPairs (l.filterMap toSelectEl) := by
  induction l with
  | nil => rfl
  | cons e t ih =>
    cases e <;>
      simp [List.filter_cons, List.filterMap_cons, isSelectEl, toSelectEl,
        flatPairs, elementPairs, ih]

theorem inputPairs_cbRadio (i : InputEl) (h : isCbRadio i = true) :
    inputPairs i =
      if i.checked && (nameStr i.name != "")
      then [(nameStr i.name,
              if i.value.getD "" = "" then "on" else i.value.getD "")]
      else [] := by
  have h' : lowerStr (i.typ.getD "") = "checkbox"
      ∨ lowerStr (i.typ.getD "") = "radio" := by
    rcases Bool.or_eq_true_iff.mp h with h1 | h1
    · exact Or.inl (by simpa using h1)
    · exact Or.inr (by simpa using h1)
  rcases h' with h1 | h1 <;>
    by_cases hn : nameStr i.name = "" <;>
      by_cases hc : i.checked <;>
        simp [inputPairs, h1, hn, hc]

theorem firstArgmax_cons_none (a : Cand) (t : List Cand)
    (ht : firstArgmax t = none) : firstArgmax (a :: t) = some a := by
  rw [firstArgmax, ht]

theorem firstArgmax_cons_some (a : Cand) (t : List Cand) (d : Cand)
    (ht : firstArgmax t = some d) :
    firstArgmax (a :: t) = if a.2.2 < d.2.2 then some d else some a := by
  rw [firstArgmax, ht]

theorem head_sortDesc (l : List Cand) : (sortDesc l).head? = firstArgmax l := by
  induction l with
  | nil => rfl
  | cons c cs ih =>
    rw [sortDesc]
    cases h : sortDesc cs with
    | nil =>
      have ih' : firstArgmax cs = none := by rw [← ih, h]; rfl
      rw [firstArgmax_cons_none c cs ih']
      rfl
    | cons d ds =>
      have ih' : firstArgmax cs = some d := by rw [← ih, h]; rfl
      rw [firstArgmax_cons_some c cs d ih', insertCand]
      by_cases hle : d.2.2 ≤ c.2.2
      · rw [if_pos hle, if_neg (not_lt.mpr hle)]
        rfl
      · rw [if_neg hle, if_pos (not_le.mp hle)]
        rfl

theorem firstArgmax_cons_isSome (a : Cand) (t : List Cand) :
    (firstArgmax (a :: t)).isSome = true := by
  cases ht : firstArgmax t with
  | none => rw [firstArgmax_cons_none a t ht]; rfl
  | some d =>
    rw [firstArgmax_cons_some a t d ht]
    by_cases hlt : a.2.2 < d.2.2
    · rw [if_pos hlt]; rfl
    · rw [if_neg hlt]; rfl

theorem firstArgmax_spec (l : List Cand) (c : Cand)
    (h : firstArgmax l = some c) :
    c ∈ l ∧ (∀ d ∈ l, d.2.2 ≤ c.2.2) ∧
      ∃ l1 l2, l = l1 ++ c :: l2 ∧ ∀ d ∈ l1, d.2.2 < c.2.2 := by
  induction l generalizing c with
  | nil => cases h
  | cons a t ih =>
    cases ht : firstArgmax t with
    | none =>
      rw [firstArgmax_cons_none a t ht] at h
      cases h
      have ht' : t = [] := by
        cases t with
        | nil => rfl
        | cons x xs =>
          have hs := firstArgmax_cons_isSome x xs
          rw [ht] at hs
          simp at hs
      subst ht'
      exact ⟨List.mem_singleton.mpr rfl,
        by intro d hd; rw [List.mem_singleton.mp hd],
        [], [], rfl, by intro d hd; cases hd⟩
    | some d0 =>
      rw [firstArgmax_cons_some a t d0 ht] at h
      obtain ⟨hmem, hbound, l1, l2, heq, hfirst⟩ := ih d0 ht
      by_cases hlt : a.2.2 < d0.2.2
      · rw [if_pos hlt] at h
        cases h
        refine ⟨List.mem_cons_of_mem a hmem, ?_, a :: l1, l2,
          by rw [heq]; rfl, ?_⟩
        · intro d hd
          rcases List.mem_cons.mp hd with rfl | hd'
          · exact le_of_lt hlt
          · exact hbound d hd'
        · intro d hd
          rcases List.mem_cons.mp hd with rfl | hd'
          · exact hlt
          · exact hfirst d hd'
      · rw [if_neg hlt] at h
        cases h
        refine ⟨List.mem_cons_self a t, ?_, [], t, rfl,
          by intro d hd; cases hd⟩
        intro d hd
        rcases List.mem_cons.mp hd with rfl | hd'
        · exact le_refl _
        · exact le_trans (hbound d hd') (not_lt.mp hlt)

theorem firstInput_eq_none (p : InputEl → Bool) (l : List Element)
    (h : ∀ i, Element.input i ∈ l → p i = false) : firstInput p l = none := by
  induction l with
  | nil => rfl
  | cons e t ih =>
    cases e with
    | input i =>
      rw [firstInput, h i (List.mem_cons_self _ _)]
      simp only [Bool.false_eq_true, if_false]
      exact ih (fun j hj => h j (List.mem_cons_of_mem _ hj))
    | textarea t0 => exact ih (fun j hj => h j (List.mem_cons_of_mem _ hj))
    | sel s0 => exact ih (fun j hj => h j (List.mem_cons_of_mem _ hj))

theorem firstInput_some (p : InputEl → Bool) (l : List Element) (i : InputEl)
    (h : firstInput p l = some i) : Element.input i ∈ l ∧ p i = true := by
  induction l with
  | nil => cases h
  | cons e t ih =>
    cases e with
    | input j =>
      by_cases hp : p j
      · rw [firstInput, if_pos hp] at h
        cases h
        exact ⟨List.mem_cons_self _ _, hp⟩
      · rw [firstInput, if_neg hp] at h
        obtain ⟨hm, hpi⟩ := ih h
        exact ⟨List.mem_cons_of_mem _ hm, hpi⟩
    | textarea t0 =>
      obtain ⟨hm, hpi⟩ := ih h
      exact ⟨List.mem_cons_of_mem _ hm, hpi⟩
    | sel s0 =>
      obtain ⟨hm, hpi⟩ := ih h
      exact ⟨List.mem_cons_of_mem _ hm, hpi⟩

theorem truthyVal_some (i : InputEl) (v : String) (h : truthyVal i = some v) :
    v ≠ "" ∧ i.value = some v := by
  rw [truthyVal] at h
  obtain ⟨w, hw, hv⟩ := Option.bind_eq_some.mp h
  by_cases hempty : w = ""
  · rw [if_pos hempty] at hv
    cases hv
  · rw [if_neg hempty] at hv
    cases hv
    exact ⟨hempty, hw⟩

theorem bindTruthy_some (p : InputEl → Bool) (l : List Element) (v : String)
    (h : (firstInput p l).bind truthyVal = some v) :
    v ≠ "" ∧ ∃ u, Element.input u ∈ l ∧ p u = true ∧ u.value = some v := by
  cases hf : firstInput p l with
  | none => rw [hf] at h; cases h
  | some u =>
    rw [hf, Option.some_bind] at h
    obtain ⟨hne, hv⟩ := truthyVal_some u v h
    obtain ⟨hm, hp⟩ := firstInput_some p l u hf
    exact ⟨hne, u, hm, hp, hv⟩

theorem fallbackAddr_spec (f : Form) (i : Nat) :
    fallbackAddr f i ≠ "" ∧
      (fallbackAddr f i = "(unknown)" ∨
        ∃ u : InputEl, Element.input u ∈ f.elements ∧ u.name = some "user" ∧
          u.value = some (fallbackAddr f i)) := by
  rw [fallbackAddr]
  cases hb : (firstInput (fun u => u.name == some "user")
      (f.elements.drop (i + 1))).bind truthyVal with
  | none => exact ⟨by decide, Or.inl rfl⟩
  | some v =>
    obtain ⟨hne, u, hm, hp, hv⟩ := bindTruthy_some _ _ _ hb
    refine ⟨hne, Or.inr ⟨u, List.drop_subset _ _ hm, ?_, hv⟩⟩
    simpa using hp

theorem rowAddrOf_some (f : Form) (b : InputEl) (v : String)
    (h : rowAddrOf f b = some v) :
    v ≠ "" ∧ ∃ u : InputEl, Element.input u ∈ f.elements ∧
      u.name = some "user" ∧ u.value = some v := by
  cases hr : b.rowId with
  | none => rw [rowAddrOf, hr] at h; cases h
  | some rid =>
    rw [rowAddrOf, hr] at h
    obtain ⟨hne, u, hm, hp, hv⟩ := bindTruthy_some _ _ _ h
    refine ⟨hne, u, hm, ?_, hv⟩
    have := Bool.and_eq_true_iff.mp hp
    simpa using this.2

theorem resolveAddr_spec (f : Form) (i : Nat) (b : InputEl) :
    resolveAddr f i b ≠ "" ∧
      (resolveAddr f i b = "(unknown)" ∨
        ∃ u : InputEl, Element.input u ∈ f.elements ∧ u.name = some "user" ∧
          u.value = some (resolveAddr f i b)) := by
  cases hra : rowAddrOf f b with
  | none =>
    have hres : resolveAddr f i b = fallbackAddr f i := by rw [resolveAddr, hra]
    rw [hres]
    exact fallbackAddr_spec f i
  | some v =>
    have hres : resolveAddr f i b = v := by rw [resolveAddr, hra]
    rw [hres]
    obtain ⟨hne, u, hm, hn, hv⟩ := rowAddrOf_some f b v hra
    exact ⟨hne, Or.inr ⟨u, hm, hn, hv⟩⟩

theorem blockedRowsAux_mem (f : Form) (l : List Element) (n : Nat) (r : Row)
    (h : r ∈ blockedRowsAux f n l) :
    ∃ j b, r = (nameStr b.name, resolveAddr f j b, reasonFromBox b) := by
  induction l generalizing n with
  | nil => cases h
  | cons e t ih =>
    cases e with
    | input b =>
      simp only [blockedRowsAux] at h
      rcases List.mem_append.mp h with h1 | h2
      · by_cases hb : isBlockedBox b
        · rw [if_pos hb] at h1
          exact ⟨n, b, List.mem_singleton.mp h1⟩
        · rw [if_neg hb] at h1
          cases h1
      · exact ih _ h2
    | textarea t0 =>
      simp only [blockedRowsAux, List.nil_append] at h
      exact ih _ h
    | sel s0 =>
      simp only [blockedRowsAux, List.nil_append] at h
      exact ih _ h

theorem blockedRowsAux_length (f : Form) (l : List Element) (n : Nat) :
    (blockedRowsAux f n l).length = (l.filter isBlockedElem).length := by
  induction l generalizing n with
  | nil => rfl
  | cons e t ih =>
    cases e with
    | input b =>
      simp only [blockedRowsAux, List.length_append, ih (n + 1)]
      by_cases hb : isBlockedBox b
      · rw [if_pos hb, List.filter_cons_of_pos (by exact hb)]
        simp [Nat.add_comm]
      · rw [if_neg hb, List.filter_cons_of_neg (by exact hb)]
        simp
    | textarea t0 =>
      simp only [blockedRowsAux, List.length_append, ih (n + 1)]
      rw [List.filter_cons_of_neg (by simp [isBlockedElem])]
      simp
    | sel s0 =>
      simp only [blockedRowsAux, List.length_append, ih (n + 1)]
      rw [List.filter_cons_of_neg (by simp [isBlockedElem])]
      simp

/-! ## The claims -/

/-- Claim C1 counterexample: for a form whose select precedes its text
input, the built payload is not the interleaved document-order (browser)
payload — `collect_payload_pairs` emits the input's pair first while a
browser submission sends the select's pair first. -/
theorem claim_C1_counterexample :
    collect_payload_pairs cForm1 ≠ browserPairs cForm1 ∧
      collect_payload_pairs cForm1 = [("t", "x"), ("s", "v1")] ∧
      browserPairs cForm1 = [("s", "v1"), ("t", "x")] := by
  refine ⟨by decide, rfl, rfl⟩

/-- Claim C1 (amended): the built payload lists the form's (name, value)
pairs field-for-field and in document order within each element kind, but
grouped — all input-derived pairs first, then textarea-derived, then
select-derived.  Equivalently, it reproduces the browser submission of the
form with its field elements stably regrouped by kind, rather than of the
form itself. -/
theorem claim_C1_grouped_payload (f : Form) :
    collect_payload_pairs f = browserPairs (regroup f) := by
  simp only [collect_payload_pairs, browserPairs, regroup, inputsOf,
    textareasOf, selectsOf, flatPairs_append, flatPairs_filter_input,
    flatPairs_filter_textarea, flatPairs_filter_select]

/-- Claim C2: `withoutNames` removes every pair whose name lies in the
name set — duplicates included (the count of any pair with a removed name
drops to zero) — and keeps all remaining pairs with their values,
multiplicities and relative order (the result is a sublist, and counts of
pairs with unremoved names are untouched). -/
theorem claim_C2_withoutNames (p : List (String × String)) (S : List String) :
    (withoutNames p S).Sublist p ∧
      ∀ q : String × String,
        (withoutNames p S).countP (fun x => decide (x = q))
          = if q.1 ∈ S then 0 else p.countP (fun x => decide (x = q)) := by
  refine ⟨List.filter_sublist p, ?_⟩
  intro q
  induction p with
  | nil => simp [withoutNames]
  | cons a t ih =>
    rw [withoutNames, List.filter_cons]
    by_cases ha : a.1 ∈ S
    · rw [if_neg (by simp [ha])]
      rw [show List.filter (fun kv => decide (kv.1 ∉ S)) t
          = withoutNames t S from rfl, ih]
      by_cases hq : q.1 ∈ S
      · rw [if_pos hq, if_pos hq]
      · rw [if_neg hq, if_neg hq, List.countP_cons]
        have hane : a ≠ q := fun hh => hq (hh ▸ ha)
        simp [hane]
    · rw [if_pos (by simp [ha])]
      rw [List.countP_cons, show List.filter (fun kv => decide (kv.1 ∉ S)) t
          = withoutNames t S from rfl, ih]
      by_cases hq : q.1 ∈ S
      · have hane : a ≠ q := fun hh => ha (hh ▸ hq)
        rw [if_pos hq, if_pos hq]
        simp [hane]
      · rw [if_neg hq, if_neg hq, List.countP_cons]

/-- Claim C3 counterexample: a form with two checked checkboxes (N = K = 2),
one named `c` with an explicit empty value attribute and one nameless with
value `x`.  The claim predicts two checkbox-derived pairs with values `""`
and `"x"`; the code emits a single pair `("c", "on")` — the nameless box is
skipped, and an explicit empty value still yields `"on"`. -/
theorem claim_C3_counterexample :
    collect_payload_pairs cForm3 = [("c", "on")] ∧
      (collect_payload_pairs cForm3).length ≠ 2 := by
  exact ⟨rfl, by decide⟩

/-- Claim C3 (amended): among a form's checkbox/radio inputs, exactly the
checked ones carrying a usable (non-empty) name contribute pairs — one
each — whose value is the literal `"on"` when the value attribute is
absent or empty, and the literal value otherwise; so the number of
checkbox/radio-derived pairs equals the number of checked named boxes. -/
theorem claim_C3_checkbox_pairs (f : Form) :
    flatPairs inputPairs ((inputsOf f).filter isCbRadio)
      = ((inputsOf f).filter
            (fun i => isCbRadio i && i.checked && (nameStr i.name != ""))).map
          (fun i => (nameStr i.name,
            if i.value.getD "" = "" then "on" else i.value.getD "")) ∧
    (flatPairs inputPairs ((inputsOf f).filter isCbRadio)).length
      = ((inputsOf f).filter
            (fun i => isCbRadio i && i.checked && (nameStr i.name != ""))).length := by
  have h1 : ∀ l : List InputEl,
      flatPairs inputPairs (l.filter isCbRadio)
        = (l.filter
              (fun i => isCbRadio i && i.checked && (nameStr i.name != ""))).map
            (fun i => (nameStr i.name,
              if i.value.getD "" = "" then "on" else i.value.getD "")) := by
    intro l
    induction l with
    | nil => rfl
    | cons i t ih =>
      by_cases h : isCbRadio i
      · rw [List.filter_cons_of_pos h]
        rw [show flatPairs inputPairs (i :: List.filter isCbRadio t)
            = inputPairs i ++ flatPairs inputPairs (List.filter isCbRadio t)
          from rfl]
        rw [inputPairs_cbRadio i h, ih]
        by_cases hck : (i.checked && (nameStr i.name != "")) = true
        · rw [if_pos hck, List.filter_cons_of_pos (by simp [h, hck])]
          simp
        · rw [if_neg hck, List.filter_cons_of_neg (by simp [h]; simpa using hck)]
          simp
      · rw [List.filter_cons_of_neg h,
          List.filter_cons_of_neg (by simp [h]), ih]
  exact ⟨h1 (inputsOf f), by rw [h1 (inputsOf f), List.length_map]⟩

/-- Claim C4: for a named single select, when no option is marked selected
the select contributes exactly one pair valued by its first option (value
attribute, else text); when some option is marked selected, the first such
option's value is used instead. -/
theorem claim_C4_select (s : SelectEl) (hn : nameStr s.name ≠ "")
    (hm : s.multiple = false) :
    ((∀ o ∈ s.options, o.selected = false) → ∀ o0 rest,
        s.options = o0 :: rest →
        selPairs s = [(nameStr s.name, o0.value.getD o0.text)]) ∧
    (∀ o0 rest, s.options.filter (fun o => o.selected) = o0 :: rest →
        selPairs s = [(nameStr s.name, o0.value.getD o0.text)]) := by
  constructor
  · intro hall o0 rest hopts
    have hfil : s.options.filter (fun o => o.selected) = [] := by
      rw [List.filter_eq_nil_iff]
      intro o ho
      simp [hall o ho]
    rw [hopts] at hfil
    simp only [selPairs, if_neg hn, hm, Bool.false_eq_true, if_false,
      ite_false, hopts, hfil]
  · intro o0 rest hfil
    simp only [selPairs, if_neg hn, hm, Bool.false_eq_true, if_false,
      ite_false, hfil]

/-- Claim C4 witness: a concrete named single select with no selected
option yields exactly the pair of its first option's value. -/
theorem claim_C4_witness :
    nameStr wSel4.name ≠ "" ∧ wSel4.multiple = false ∧
      selPairs wSel4 = [("sel1", "v1")] :=
  ⟨by decide, rfl,
    (claim_C4_select wSel4 (by decide) rfl).1 (by decide) _ _ rfl⟩

/-- Claim C5 counterexample: the claim scores the plain concatenation of
name and value and returns the field's own (name, value); the code scores
the space-joined text and substitutes `"Submit"` for an empty value.  On a
form with submit fields `sub`/`mit` and valueless `gosubmit`, the claim's
selector picks `("sub", "mit")` (both score 5, first wins) while the code
scores `"sub mit"` 0 and picks `("gosubmit", "Submit")`. -/
theorem claim_C5_counterexample :
    pick_members_submit cForm5 ≠ membersSubmitPerClaim cForm5 ∧
      pick_members_submit cForm5 = ("gosubmit", "Submit") ∧
      membersSubmitPerClaim cForm5 = ("sub", "mit") := by
  refine ⟨by decide, rfl, rfl⟩

/-- Claim C5 (amended): the selector scores each named submit field over
the lowercased name and value joined by a single space (+5 for the
state-changing tokens, +3 more for "setmember", −10 for "search" or
"findmember"), the returned value is the field's value with `"Submit"`
substituted when it is empty or absent, and the returned pair is that of
the first candidate attaining the maximal score — earlier candidates all
score strictly lower, later ones no higher. -/
theorem claim_C5_submit_scoring (f : Form) (c : Cand)
    (h : firstArgmax (candidatesOf f) = some c) :
    pick_members_submit f = (c.1, c.2.1) ∧ c ∈ candidatesOf f ∧
      (∀ d ∈ candidatesOf f, d.2.2 ≤ c.2.2) ∧
      ∃ l1 l2, candidatesOf f = l1 ++ c :: l2 ∧ ∀ d ∈ l1, d.2.2 < c.2.2 := by
  have hh := head_sortDesc (candidatesOf f)
  rw [h] at hh
  have hpick : pick_members_submit f = (c.1, c.2.1) := by
    rw [pick_members_submit]
    cases hs : sortDesc (candidatesOf f) with
    | nil => rw [hs] at hh; cases hh
    | cons d ds =>
      rw [hs] at hh
      simp only [List.head?_cons, Option.some.injEq] at hh
      rw [hh]
  obtain ⟨hmem, hbound, hfirst⟩ := firstArgmax_spec _ _ h
  exact ⟨hpick, hmem, hbound, hfirst⟩

/-- Claim C5 witness: on the concrete members page the single candidate
(`setmembers`, score 8) is picked. -/
theorem claim_C5_witness :
    pick_members_submit wForm = ("setmembers", "Submit Your Changes") :=
  (claim_C5_submit_scoring wForm ("setmembers", "Submit Your Changes", 8)
    (by decide)).1

/-- Claim C6 counterexample: on a form with no submit-type field at all,
the members selector does not fail — it returns the synthesized fallback
pair `("submit", "Submit")` from `pick_submit_control`. -/
theorem claim_C6_counterexample :
    ((inputsOf cForm6).all
        (fun i => lowerStr (i.typ.getD "") != "submit")) = true ∧
      pick_members_submit cForm6 = ("submit", "Submit") := by
  exact ⟨by decide, rfl⟩

/-- Claim C6 (amended): for every form containing no submit-type input,
selecting the members submit control returns the synthesized fallback pair
`("submit", "Submit")` instead of failing with a "no submit control"
condition. -/
theorem claim_C6_fallback (f : Form)
    (h : ∀ i ∈ inputsOf f, lowerStr (i.typ.getD "") ≠ "submit") :
    pick_members_submit f = ("submit", "Submit") := by
  have hmem : ∀ i, Element.input i ∈ f.elements →
      lowerStr (i.typ.getD "") ≠ "submit" := by
    intro i hi
    exact h i (by rw [inputsOf]; exact List.mem_filterMap.mpr ⟨_, hi, rfl⟩)
  have hc : candidatesOf f = [] := by
    rw [candidatesOf, List.filterMap_eq_nil_iff]
    intro i hi
    rw [if_neg (h i hi)]
  have hf : firstInput
      (fun i => lowerStr (i.typ.getD "") == "submit" && nameStr i.name != "")
      f.elements = none := by
    apply firstInput_eq_none
    intro i hi
    simp [hmem i hi]
  rw [pick_members_submit, hc]
  simp only [sortDesc]
  rw [pick_submit_control, hf]

/-- Claim C6 witness: the amended statement applied to the concrete
submit-less form. -/
theorem claim_C6_witness : pick_members_submit cForm6 = ("submit", "Submit") :=
  claim_C6_fallback cForm6 (by decide)

/-- Claim C7: the blocked-row extractor emits exactly one row per checked
`*_nomail` checkbox (no row is dropped), and no row's address is the empty
string — each address either is the sentinel `"(unknown)"` or is the
non-empty value of an actual input named `user` on the page (row-local
first, else nearest following), so the extractor never invents one. -/
theorem claim_C7_blocked_rows (f : Form) :
    (find_blocked_rows_with_reasons f).length
        = (f.elements.filter isBlockedElem).length ∧
      ∀ r ∈ find_blocked_rows_with_reasons f,
        r.2.1 ≠ "" ∧
          (r.2.1 = "(unknown)" ∨
            ∃ u : InputEl, Element.input u ∈ f.elements ∧
              u.name = some "user" ∧ u.value = some r.2.1) := by
  refine ⟨blockedRowsAux_length f f.elements 0, ?_⟩
  intro r hr
  obtain ⟨j, b, rfl⟩ := blockedRowsAux_mem f f.elements 0 r hr
  exact resolveAddr_spec f j b

/-- Claim C7 witness: the concrete members page yields its one row, whose
address is the row's `user` value. -/
theorem claim_C7_witness :
    ("x_nomail", "[email protected]", some 'B') ∈
        find_blocked_rows_with_reasons wForm ∧
      ("[email protected]" : String) ≠ "" :=
  ⟨by decide,
    ((claim_C7_blocked_rows wForm).2
      ("x_nomail", "[email protected]", some 'B') (by decide)).1⟩

/-- Shape of a live run whose verification count did not decrease, after
the first submission: the bounce-clear escalation decides the rest. -/
theorem process_letter_live_eq (urljoin : String → String → String)
    (env : MembersEnv) (form : Form)
    (hf : env.page1.form = some form) (hb' : beforeOf form ≠ 0)
    (hnlt : ¬ remainingAfter env.verify1 (beforeOf form) < beforeOf form) :
    process_letter urljoin env false =
      (if (clear_bounces_for_users urljoin env.bouncePage (addrsOf form)).1 then
        match env.retryPage.form with
        | some form2 =>
          if remainingAfter env.verify2 (beforeOf form) < beforeOf form
          then (beforeOf form - remainingAfter env.verify2 (beforeOf form),
            ⟨[memberEvent urljoin env.page1 form,
              memberEvent urljoin env.retryPage form2],
             some (addrsOf form),
             (clear_bounces_for_users urljoin env.bouncePage (addrsOf form)).2,
             none⟩)
          else (0,
            ⟨[memberEvent urljoin env.page1 form,
              memberEvent urljoin env.retryPage form2],
             some (addrsOf form),
             (clear_bounces_for_users urljoin env.bouncePage (addrsOf form)).2,
             none⟩)
        | none => (0,
            ⟨[memberEvent urljoin env.page1 form],
             some (addrsOf form),
             (clear_bounces_for_users urljoin env.bouncePage (addrsOf form)).2,
             none⟩)
       else (0,
          ⟨[memberEvent urljoin env.page1 form],
           some (addrsOf form),
           (clear_bounces_for_users urljoin env.bouncePage (addrsOf form)).2,
           none⟩)) := by
  simp only [process_letter, hf]
  rw [if_neg hb', if_neg hnlt]
  exact rfl

/-- A dry run with targets returns the count and the preview. -/
theorem process_letter_dry_eq (urljoin : String → String → String)
    (env : MembersEnv) (form : Form)
    (hf : env.page1.form = some form) (hb' : beforeOf form ≠ 0) :
    process_letter urljoin env true =
      (beforeOf form,
        ⟨[], none, none, some (memberEvent urljoin env.page1 form)⟩) := by
  simp only [process_letter, hf]
  rw [if_neg hb']
  exact if_pos trivial

/-- A live run whose verification count decreased stops after the first
submission. -/
theorem process_letter_decreased_eq (urljoin : String → String → String)
    (env : MembersEnv) (form : Form)
    (hf : env.page1.form = some form) (hb' : beforeOf form ≠ 0)
    (hlt : remainingAfter env.verify1 (beforeOf form) < beforeOf form) :
    process_letter urljoin env false =
      (beforeOf form - remainingAfter env.verify1 (beforeOf form),
        ⟨[memberEvent urljoin env.page1 form], none, none, none⟩) := by
  simp only [process_letter, hf]
  rw [if_neg hb', if_pos hlt]
  exact rfl

/-- A live unchanged run whose escalation reported a change, with a
parsable retry page, performs exactly one retry submission. -/
theorem process_letter_retry_eq (urljoin : String → String → String)
    (env : MembersEnv) (form form2 : Form)
    (hf : env.page1.form = some form) (hb' : beforeOf form ≠ 0)
    (hnlt : ¬ remainingAfter env.verify1 (beforeOf form) < beforeOf form)
    (hcb : (clear_bounces_for_users urljoin env.bouncePage (addrsOf form)).1 = true)
    (hret : env.retryPage.form = some form2) :
    process_letter urljoin env false =
      (if remainingAfter env.verify2 (beforeOf form) < beforeOf form
       then (beforeOf form - remainingAfter env.verify2 (beforeOf form),
         ⟨[memberEvent urljoin env.page1 form,
           memberEvent urljoin env.retryPage form2],
          some (addrsOf form),
          (clear_bounces_for_users urljoin env.bouncePage (addrsOf form)).2,
          none⟩)
       else (0,
         ⟨[memberEvent urljoin env.page1 form,
           memberEvent urljoin env.retryPage form2],
          some (addrsOf form),
          (clear_bounces_for_users urljoin env.bouncePage (addrsOf form)).2,
          none⟩)) := by
  rw [process_letter_live_eq urljoin env form hf hb' hnlt, if_pos hcb, hret]

/-- A live unchanged run whose escalation reported a change but whose
retry page has no form performs no retry submission. -/
theorem process_letter_retry_noform_eq (urljoin : String → String → String)
    (env : MembersEnv) (form : Form)
    (hf : env.page1.form = some form) (hb' : beforeOf form ≠ 0)
    (hnlt : ¬ remainingAfter env.verify1 (beforeOf form) < beforeOf form)
    (hcb : (clear_bounces_for_users urljoin env.bouncePage (addrsOf form)).1 = true)
    (hret : env.retryPage.form = none) :
    process_letter urljoin env false =
      (0, ⟨[memberEvent urljoin env.page1 form], some (addrsOf form),
        (clear_bounces_for_users urljoin env.bouncePage (addrsOf form)).2,
        none⟩) := by
  rw [process_letter_live_eq urljoin env form hf hb' hnlt, if_pos hcb, hret]

/-- A live unchanged run whose escalation reported no change performs no
retry submission and returns zero. -/
theorem process_letter_nochange_eq (urljoin : String → String → String)
    (env : MembersEnv) (form : Form)
    (hf : env.page1.form = some form) (hb' : beforeOf form ≠ 0)
    (hnlt : ¬ remainingAfter env.verify1 (beforeOf form) < beforeOf form)
    (hcb : (clear_bounces_for_users urljoin env.bouncePage (addrsOf form)).1 = false) :
    process_letter urljoin env false =
      (0, ⟨[memberEvent urljoin env.page1 form], some (addrsOf form),
        (clear_bounces_for_users urljoin env.bouncePage (addrsOf form)).2,
        none⟩) := by
  rw [process_letter_live_eq urljoin env form hf hb' hnlt,
    if_neg (by rw [hcb]; exact Bool.false_ne_true)]

/-- Shared shape of a run whose verification count is unchanged: the
escalator runs on the original addresses and decides whether one retry
submission follows. -/
theorem process_letter_unchanged_spec (urljoin : String → String → String)
    (env : MembersEnv) (form : Form)
    (hf : env.page1.form = some form)
    (hb : 0 < beforeOf form)
    (hun : remainingAfter env.verify1 (beforeOf form) = beforeOf form) :
    (process_letter urljoin env false).2.escalator = some (addrsOf form) ∧
      (process_letter urljoin env false).2.memberSubmits.length ≤ 2 ∧
      ((clear_bounces_for_users urljoin env.bouncePage (addrsOf form)).1 = false →
        (process_letter urljoin env false).2.memberSubmits
            = [memberEvent urljoin env.page1 form] ∧
          (process_letter urljoin env false).1 = 0) ∧
      (∀ form2,
        (clear_bounces_for_users urljoin env.bouncePage (addrsOf form)).1 = true →
        env.retryPage.form = some form2 →
        (process_letter urljoin env false).2.memberSubmits
            = [memberEvent urljoin env.page1 form,
               memberEvent urljoin env.retryPage form2]) := by
  have hb' : beforeOf form ≠ 0 := Nat.pos_iff_ne_zero.mp hb
  have hnlt : ¬ remainingAfter env.verify1 (beforeOf form) < beforeOf form := by
    rw [hun]
    exact lt_irrefl _
  cases hcb :
      (clear_bounces_for_users urljoin env.bouncePage (addrsOf form)).1 with
  | false =>
    rw [process_letter_nochange_eq urljoin env form hf hb' hnlt hcb]
    refine ⟨rfl, Nat.le_succ 1, fun _ => ⟨rfl, rfl⟩, ?_⟩
    intro form2 htrue _
    cases htrue
  | true =>
    cases hret : env.retryPage.form with
    | none =>
      rw [process_letter_retry_noform_eq urljoin env form hf hb' hnlt hcb hret]
      refine ⟨rfl, Nat.le_succ 1, ?_, ?_⟩
      · intro hfalse
        cases hfalse
      · intro form2 _ hr2
        cases hr2
    | some form2 =>
      rw [process_letter_retry_eq urljoin env form form2 hf hb' hnlt hcb hret]
      by_cases h2 : remainingAfter env.verify2 (beforeOf form) < beforeOf form
      · rw [if_pos h2]
        refine ⟨rfl, Nat.le_refl 2, ?_, ?_⟩
        · intro hfalse
          cases hfalse
        · intro form2' _ hr2
          cases hr2
          rfl
      · rw [if_neg h2]
        refine ⟨rfl, Nat.le_refl 2, ?_, ?_⟩
        · intro hfalse
          cases hfalse
        · intro form2' _ hr2
          cases hr2
          rfl

/-- Claim C8: when verification shows the bounce count unchanged, the
escalator is invoked with the originally targeted addresses; the retry
submission happens exactly when the escalator reports a change (and the
fresh page parses): then the members submissions are exactly the original
one followed by one rebuilt from the fresh form — never more than two —
while a no-change report leaves the original submission alone and the
letter reports zero. -/
theorem claim_C8_escalation (urljoin : String → String → String)
    (env : MembersEnv) (form : Form)
    (hf : env.page1.form = some form)
    (hb : 0 < beforeOf form)
    (hun : remainingAfter env.verify1 (beforeOf form) = beforeOf form) :
    (process_letter urljoin env false).2.escalator = some (addrsOf form) ∧
      (process_letter urljoin env false).2.memberSubmits.length ≤ 2 ∧
      ((clear_bounces_for_users urljoin env.bouncePage (addrsOf form)).1 = false →
        (process_letter urljoin env false).2.memberSubmits
            = [memberEvent urljoin env.page1 form] ∧
          (process_letter urljoin env false).1 = 0) ∧
      (∀ form2,
        (clear_bounces_for_users urljoin env.bouncePage (addrsOf form)).1 = true →
        env.retryPage.form = some form2 →
        (process_letter urljoin env false).2.memberSubmits
            = [memberEvent urljoin env.page1 form,
               memberEvent urljoin env.retryPage form2]) :=
  process_letter_unchanged_spec urljoin env form hf hb hun

/-- Claim C8 witness: on the concrete environment the server ignores the
first submit, the escalator matches and reports a change, and exactly one
retry submission follows the original. -/
theorem claim_C8_witness :
    (process_letter wUJ wEnv false).2.escalator = some (addrsOf wForm) ∧
      (process_letter wUJ wEnv false).2.memberSubmits
        = [memberEvent wUJ wEnv.page1 wForm, memberEvent wUJ wEnv.retryPage wForm] := by
  have h := claim_C8_escalation wUJ wEnv wForm rfl (by decide) (by decide)
  exact ⟨h.1, h.2.2.2 wForm (by decide) rfl⟩

/-- Claim C9: with a non-empty target set, dry-run performs no submission
and no escalation, reports the pre-submission target count, and the
preview payload and action URL it computes are exactly the submission the
live path performs first. -/
theorem claim_C9_dry_run (urljoin : String → String → String)
    (env : MembersEnv) (form : Form)
    (hf : env.page1.form = some form) (hb : 0 < beforeOf form) :
    (process_letter urljoin env true).1 = beforeOf form ∧
      (process_letter urljoin env true).2.memberSubmits = [] ∧
      (process_letter urljoin env true).2.bounceSubmit = none ∧
      (process_letter urljoin env true).2.escalator = none ∧
      (process_letter urljoin env true).2.preview
          = some (memberEvent urljoin env.page1 form) ∧
      (process_letter urljoin env false).2.memberSubmits.head?
          = some (memberEvent urljoin env.page1 form) := by
  have hb' : beforeOf form ≠ 0 := Nat.pos_iff_ne_zero.mp hb
  have hdry := process_letter_dry_eq urljoin env form hf hb'
  refine ⟨by rw [hdry], by rw [hdry], by rw [hdry], by rw [hdry],
    by rw [hdry], ?_⟩
  by_cases h1 : remainingAfter env.verify1 (beforeOf form) < beforeOf form
  · rw [process_letter_decreased_eq urljoin env form hf hb' h1]
    rfl
  · cases hcb :
        (clear_bounces_for_users urljoin env.bouncePage (addrsOf form)).1 with
    | false =>
      rw [process_letter_nochange_eq urljoin env form hf hb' h1 hcb]
      rfl
    | true =>
      cases hret : env.retryPage.form with
      | none =>
        rw [process_letter_retry_noform_eq urljoin env form hf hb' h1 hcb hret]
        rfl
      | some form2 =>
        rw [process_letter_retry_eq urljoin env form form2 hf hb' h1 hcb hret]
        by_cases h2 : remainingAfter env.verify2 (beforeOf form) < beforeOf form
        · rw [if_pos h2]
          rfl
        · rw [if_neg h2]
          rfl

/-- Claim C9 witness: on the concrete members page dry-run reports 1 and
previews exactly the live path's first submission. -/
theorem claim_C9_witness :
    (process_letter wUJ wEnv true).1 = beforeOf wForm ∧
      (process_letter wUJ wEnv true).2.memberSubmits = [] ∧
      (process_letter wUJ wEnv true).2.preview
        = some (memberEvent wUJ wEnv.page1 wForm) := by
  have h := claim_C9_dry_run wUJ wEnv wForm rfl (by decide)
  exact ⟨h.1, h.2.1, h.2.2.2.2.1⟩

/-- Claim C10: a page with no parsable form is benign at each point a form
is expected — a formless members page yields a zero count and an empty
trace; a formless verification re-fetch counts as "no change", so the run
proceeds to the escalator rather than failing; and a formless bounce page
makes the escalator report no change without submitting anything. -/
theorem claim_C10_form_absent (urljoin : String → String → String) :
    (∀ (env : MembersEnv) (dryRun : Bool), env.page1.form = none →
        process_letter urljoin env dryRun = (0, emptyTrace)) ∧
      (∀ (env : MembersEnv) (form : Form), env.page1.form = some form →
        0 < beforeOf form → env.verify1.form = none →
        (process_letter urljoin env false).2.escalator = some (addrsOf form)) ∧
      (∀ (page : Page) (addrs : List String), page.form = none →
        clear_bounces_for_users urljoin page addrs = (false, none)) := by
  refine ⟨?_, ?_, ?_⟩
  · intro env dryRun h
    rw [process_letter, h]
  · intro env form hf hb hv
    have hun : remainingAfter env.verify1 (beforeOf form) = beforeOf form := by
      rw [remainingAfter, hv]
    exact (process_letter_unchanged_spec urljoin env form hf hb hun).1
  · intro page addrs h
    rw [clear_bounces_for_users, h]

/-- Claim C10 witness: the three benign no-form behaviors at concrete
pages. -/
theorem claim_C10_witness :
    process_letter wUJ wEnvNoForm false = (0, emptyTrace) ∧
      (process_letter wUJ wEnvNoVerify false).2.escalator
        = some (addrsOf wForm) ∧
      clear_bounces_for_users wUJ ⟨"u", none⟩ ["[email protected]"] = (false, none) := by
  have h := claim_C10_form_absent wUJ
  exact ⟨h.1 wEnvNoForm false rfl,
    h.2.1 wEnvNoVerify wForm rfl (by decide) rfl,
    h.2.2 ⟨"u", none⟩ ["[email protected]"] rfl⟩

end Mailman
